import Mathlib

/-
Verification of the command-execution core of the f5xc-xcsh CLI: subscription
tier resolution and gating, command-argument parsing, the headless JSON
protocol, and the login context subcommands.  TypeScript sources are embedded
shallowly: strings are Lean `String`, JS arrays are `List`, optional values are
`Option`, and fallible operations return explicit outcome values.  Definitions
whose implementation file is not among the sources are marked
`Modelled from the spec:` and are checked against the repository's own unit
tests where those exist.
-/

/-! ### ASCII case helpers

JavaScript's `toLowerCase`/`toUpperCase` restricted to ASCII, which is the
only range the embedded code applies them to (tier names, flag tokens,
resource types), and substring membership.  Defined over the character list so
that they reduce in the kernel. -/


def lowerChar (c : Char) : Char :=
  if c.toNat ≥ 65 ∧ c.toNat ≤ 90 then Char.ofNat (c.toNat + 32) else c

def upperChar (c : Char) : Char :=
  if c.toNat ≥ 97 ∧ c.toNat ≤ 122 then Char.ofNat (c.toNat - 32) else c

def lowerString (s : String) : String := ⟨s.data.map lowerChar⟩

def upperString (s : String) : String := ⟨s.data.map upperChar⟩

/-- Does the character list `hay` start with the list `needle`? -/
def startsWithSeg : List Char → List Char → Bool
  | [], _ => true
  | _ :: _, [] => false
  | a :: as, b :: bs => a = b && startsWithSeg as bs

/-- Does the character list `hay` contain `needle` as a contiguous segment?
Embeds JavaScript's `String.prototype.includes`. -/
def hasSeg (needle : List Char) : List Char → Bool
  | [] => startsWithSeg needle []
  | c :: rest => startsWithSeg needle (c :: rest) || hasSeg needle rest

def stringIncludes (hay needle : String) : Bool := hasSeg needle.data hay.data

/-- Embeds JavaScript's `hay.startsWith(needle)`. -/
def strStartsWith (hay needle : String) : Bool := startsWithSeg needle.data hay.data

/-! ### Subscription tier resolution

From `src/subscription/types.ts` and `src/subscription/client.ts`. -/

/-- The addon-service tier enumeration of `src/subscription/types.ts`
(`Tier` const object). -/
def tierValues : List String := ["NO_TIER", "BASIC", "STANDARD", "ADVANCED", "PREMIUM"]

/-- `SubscriptionClient.determineTierFromTenantType` from
`src/subscription/client.ts` (lines 146-155). -/
def determineTierFromTenantType (tenantType : String) : String :=
  if upperString tenantType = "ENTERPRISE" then "Advanced"
  else if upperString tenantType = "FREEMIUM" then "Standard"
  else "Standard"

/-- Plan information (name and display name are all
`determineTierFromPlansAndAddons` reads). -/
structure PlanInfo where
  name : String
  displayName : String
deriving DecidableEq

/-- Addon service information (the fields `determineTierFromPlansAndAddons`
reads). -/
structure AddonServiceInfo where
  name : String
  tier : String
  state : String
  accessStatus : String
deriving DecidableEq

/-- `isAddonActive` from `src/subscription/types.ts`: the addon state equals
`AddonState.Subscribed` (`"AS_SUBSCRIBED"`). -/
def isAddonActive (addon : AddonServiceInfo) : Bool :=
  addon.state = "AS_SUBSCRIBED"

/-- One plan's contribution to the legacy tier detection: its name or display
name contains `advanced` or `enterprise` (lower-cased), in which case
`determineTierFromPlansAndAddons` returns `"Advanced"`. -/
def planIndicatesAdvanced (p : PlanInfo) : Bool :=
  stringIncludes (lowerString p.name) "advanced" ||
  stringIncludes (lowerString p.displayName) "advanced" ||
  stringIncludes (lowerString p.name) "enterprise" ||
  stringIncludes (lowerString p.displayName) "enterprise"

/-- `SubscriptionClient.determineTierFromPlansAndAddons` from
`src/subscription/client.ts` (lines 404-441). -/
def determineTierFromPlansAndAddons (plans : List PlanInfo)
    (addons : List AddonServiceInfo) : String :=
  if plans.any planIndicatesAdvanced then "Advanced"
  else if addons.any (fun a => isAddonActive a &&
      (a.tier = "ADVANCED" || a.tier = "PREMIUM")) then "Advanced"
  else "Standard"

/-! ### Tier access validation

The Go validation package the repository documentation describes
(`pkg/validation/tier_helpers.go`) is not part of the TypeScript sources, so
it is modelled from §4.1 of the specification. -/

/-- Modelled from the spec: `pkg/validation/tier_helpers.go` is absent from the
sources; §4.1 defines the tier hierarchy Standard (1) < Professional (2) <
Enterprise (3) with unrecognized caller tiers treated as Enterprise-equivalent
(fail-open). -/
def tierLevel (tier : String) : Nat :=
  if tier = "Standard" then 1
  else if tier = "Professional" then 2
  else if tier = "Enterprise" then 3
  else 3

/-- Modelled from the spec: `ValidateTierAccess(callerTier, requiredTier)`
allows iff the caller's tier level reaches the required level. -/
def ValidateTierAccess (callerTier requiredTier : String) : Bool :=
  tierLevel requiredTier ≤ tierLevel callerTier

/-- The recognized tier enumeration of the validation contract. -/
def specTierNames : List String := ["Standard", "Professional", "Enterprise"]

/-- The three-valued tier enumeration of the validation contract, as an
abstract ordered type. -/
inductive SpecTier where
  | standard
  | professional
  | enterprise
deriving DecidableEq

/-- Numeric rank of a tier: Standard = 1, Professional = 2, Enterprise = 3. -/
def SpecTier.rank : SpecTier → Nat
  | .standard => 1
  | .professional => 2
  | .enterprise => 3

/-- The wire name of a tier. -/
def SpecTier.wireName : SpecTier → String
  | .standard => "Standard"
  | .professional => "Professional"
  | .enterprise => "Enterprise"

/-! ### Command argument parser

`parseCommandArgs` lives in `src/repl/executor.ts`, which is not among the
sources; only its unit tests are (`tests/unit/parse-command-args.test.ts`).
The parser is therefore modelled from §4.2 of the specification and checked
below against every expectation of the test matrix.  The output-format
normalizer it calls, `parseOutputFormat`, is embedded from
`src/output/formatter.ts`. -/

/-- `parseOutputFormat` from `src/output/formatter.ts` (lines 285-302):
normalizes a format string, falling back to `"yaml"` for unrecognized input
(and `"table"` for `table`/`text`/empty). -/
def parseOutputFormat (format : String) : String :=
  if lowerString format = "json" then "json"
  else if lowerString format = "yaml" then "yaml"
  else if lowerString format = "table" ∨ lowerString format = "text" ∨
      lowerString format = "" then "table"
  else if lowerString format = "tsv" then "tsv"
  else if lowerString format = "none" then "none"
  else "yaml"

/-- A token is a flag when it starts with `-`. -/
def isFlagToken (t : String) : Bool :=
  match t.data with
  | [] => false
  | c :: _ => c = '-'

/-- The namespace flag spellings: `--namespace`, `--ns`, `-n`, `-ns`. -/
def isNamespaceFlag (t : String) : Bool :=
  t = "--namespace" || t = "--ns" || t = "-n" || t = "-ns"

/-- The output-format flag spellings: `--output`, `-o`. -/
def isOutputFlag (t : String) : Bool :=
  t = "--output" || t = "-o"

/-- All recognized flag spellings. -/
def isRecognizedFlag (t : String) : Bool :=
  isNamespaceFlag t || t = "--name" || isOutputFlag t ||
  t = "--spec" || t = "--no-color"

/-- The value-taking recognized flags. -/
def isValueFlag (t : String) : Bool :=
  isNamespaceFlag t || t = "--name" || isOutputFlag t

/-- Modelled from the spec: the parser state during the single left-to-right
scan — the `ParsedArgs` fields plus whether the first positional token has
been consumed (§4.2 step 2). -/
structure ParseState where
  resourceType : Option String
  name : Option String
  nsValue : Option String
  outputFormat : Option String
  spec : Bool
  noColor : Bool
  residual : List String
  seenFirstPositional : Bool
deriving DecidableEq

/-- Modelled from the spec: `ParsedArgs` — optional resourceType, name,
namespace, output format, `--spec` and `--no-color` booleans, plus the
unrecognized residual tokens (§3 data model).  The `namespace` field is named
`nsValue` because `namespace` is a Lean keyword. -/
structure ParsedArgs where
  resourceType : Option String
  name : Option String
  nsValue : Option String
  outputFormat : Option String
  spec : Bool
  noColor : Bool
  residual : List String
deriving DecidableEq

/-- The parsed arguments carried by a parser state. -/
def ParseState.toParsedArgs (s : ParseState) : ParsedArgs :=
  ⟨s.resourceType, s.name, s.nsValue, s.outputFormat, s.spec, s.noColor, s.residual⟩

/-- The all-unset initial parser state. -/
def initState : ParseState :=
  ⟨none, none, none, none, false, false, [], false⟩

/-- Does the first positional token case-insensitively match a known resource
type (§4.2 step 2)? -/
def matchesResourceType (known : List String) (t : String) : Bool :=
  known.any (fun k => lowerString k = lowerString t)

/-- State update of the namespace flag. -/
def setNsValue (v : String) (s : ParseState) : ParseState := { s with nsValue := some v }

/-- State update of the `--name` flag. -/
def setNameValue (v : String) (s : ParseState) : ParseState := { s with name := some v }

/-- State update of the output flag (value normalized by
`parseOutputFormat`). -/
def setOutValue (v : String) (s : ParseState) : ParseState :=
  { s with outputFormat := some (parseOutputFormat v) }

/-- State update of the `--spec` flag. -/
def setSpecOn (s : ParseState) : ParseState := { s with spec := true }

/-- State update of the `--no-color` flag. -/
def setNoColorOn (s : ParseState) : ParseState := { s with noColor := true }

/-- Record unrecognized tokens. -/
def addResidual (ts : List String) (s : ParseState) : ParseState :=
  { s with residual := s.residual ++ ts }

/-- Modelled from the spec: handling of one positional token (§4.2 step 2).
The first positional token is tested case-insensitively against the known
resource types when they are supplied: a match sets `resourceType` (normalized
to lower case); otherwise the token becomes `name` if `name` is still unset.
Later positional tokens fill `name` only when it is still unset (first one
wins; extras are silently dropped). -/
def posStep (known : Option (List String)) (t : String) (s : ParseState) : ParseState :=
  if s.seenFirstPositional then
    if s.name = none then { s with name := some t } else s
  else
    match known with
    | some ks =>
      if matchesResourceType ks t then
        { s with resourceType := some (lowerString t), seenFirstPositional := true }
      else if s.name = none then
        { s with name := some t, seenFirstPositional := true }
      else
        { s with seenFirstPositional := true }
    | none =>
      if s.name = none then
        { s with name := some t, seenFirstPositional := true }
      else
        { s with seenFirstPositional := true }

/-- Modelled from the spec: the single left-to-right scan of §4.2 with one
token of lookahead for flag values.  Recognized value-taking flags consume the
next token as their value; a value-taking flag that is the last token leaves
its field unset; `--spec` and `--no-color` are boolean; any other `-` token is
unknown and is consumed together with the next token when that token is not
itself a flag; non-flag tokens are positional. -/
def parseLoop (known : Option (List String)) : List String → ParseState → ParseState
  | [], s => s
  | t :: rest, s =>
    if isNamespaceFlag t then
      match rest with
      | [] => s
      | v :: r => parseLoop known r (setNsValue v s)
    else if t = "--name" then
      match rest with
      | [] => s
      | v :: r => parseLoop known r (setNameValue v s)
    else if isOutputFlag t then
      match rest with
      | [] => s
      | v :: r => parseLoop known r (setOutValue v s)
    else if t = "--spec" then parseLoop known rest (setSpecOn s)
    else if t = "--no-color" then parseLoop known rest (setNoColorOn s)
    else if isFlagToken t then
      match rest with
      | [] => addResidual [t] s
      | v :: r =>
        if isFlagToken v then parseLoop known (v :: r) (addResidual [t] s)
        else parseLoop known r (addResidual [t, v] s)
    else parseLoop known rest (posStep known t s)
termination_by structural l => l

/-- Modelled from the spec: `ParseCommandArgs(tokens, knownResourceTypes?)`
(§4.2 contract). -/
def parseCommandArgs (tokens : List String) (known : Option (List String)) : ParsedArgs :=
  (parseLoop known tokens initState).toParsedArgs

/-- A self-contained flag occurrence, used to state order independence of the
positional name around an arbitrary block of flags. -/
inductive FlagItem where
  | nsItem (f v : String)
  | nameItem (v : String)
  | outItem (f v : String)
  | specItem
  | noColorItem
  | otherItem (f v : String)
deriving DecidableEq

/-- The tokens a flag item contributes to the command line. -/
def FlagItem.tokens : FlagItem → List String
  | .nsItem f v => [f, v]
  | .nameItem v => ["--name", v]
  | .outItem f v => [f, v]
  | .specItem => ["--spec"]
  | .noColorItem => ["--no-color"]
  | .otherItem f v => [f, v]

/-- Well-formedness of a flag item: the spelling really is the indicated flag,
and an unknown flag's value is not itself a flag (otherwise the scanner would
not consume it). -/
def FlagItem.WFItem : FlagItem → Prop
  | .nsItem f _ => isNamespaceFlag f = true
  | .nameItem _ => True
  | .outItem f _ => isOutputFlag f = true
  | .specItem => True
  | .noColorItem => True
  | .otherItem f v => isFlagToken f = true ∧ isRecognizedFlag f = false ∧ isFlagToken v = false

/-- The state update a flag item performs. -/
def FlagItem.applyItem : FlagItem → ParseState → ParseState
  | .nsItem _ v, s => setNsValue v s
  | .nameItem v, s => setNameValue v s
  | .outItem _ v, s => setOutValue v s
  | .specItem, s => setSpecOn s
  | .noColorItem, s => setNoColorOn s
  | .otherItem f v, s => addResidual [f, v] s

/-- The token list of a block of flag items. -/
def blockTokens : List FlagItem → List String
  | [] => []
  | it :: bl => it.tokens ++ blockTokens bl

/-- The combined state update of a block of flag items. -/
def applyBlock : List FlagItem → ParseState → ParseState
  | [], s => s
  | it :: bl, s => applyBlock bl (it.applyItem s)

/-! ### Headless protocol

`src/headless/protocol.ts` and the headless controller are absent from the
sources (only the module re-export and the unit tests are present), so the
protocol is modelled from §4.5 of the specification and checked against the
test expectations. -/

/-- A JSON value, the result of a successful `JSON.parse` of an inbound line.
An unparseable line is represented as `none` at `parseInput`'s call sites. -/
inductive Json where
  | jnull
  | jbool (b : Bool)
  | jnum (n : Int)
  | jstr (s : String)
  | jarr (items : List Json)
  | jobj (fields : List (String × Json))

/-- Field lookup in a JSON object. -/
def lookupField : List (String × Json) → String → Option Json
  | [], _ => none
  | (k, v) :: rest, key => if k = key then some v else lookupField rest key

/-- Modelled from the spec: the recognized inbound message types of §4.5
(`command`, `completion_request`, `interrupt`, `exit`). -/
def headlessInputTypes : List String :=
  ["command", "completion_request", "interrupt", "exit"]

/-- Modelled from the spec: a validated inbound headless message —
`src/headless/protocol.ts` is absent from the sources (only its re-export and
unit tests are present).  `typedText` holds the `partial` field of a
completion request (`partial` is a Lean keyword). -/
structure HeadlessInput where
  type : String
  value : Option String
  typedText : Option String
deriving DecidableEq

/-- Extract an optional string field from a JSON object. -/
def getStringField (fields : List (String × Json)) (key : String) : Option String :=
  match lookupField fields key with
  | some (Json.jstr s) => some s
  | _ => none

/-- Modelled from the spec: `parseInput` accepts only JSON objects whose
`type` field is a recognized inbound type and returns `none` (the TypeScript
`null`) otherwise.  The argument is the outcome of `JSON.parse`: `none` for
malformed JSON, `some j` for a parsed value `j`. -/
def parseInput (parsed : Option Json) : Option HeadlessInput :=
  match parsed with
  | some (Json.jobj fields) =>
    match lookupField fields "type" with
    | some (Json.jstr t) =>
      if t ∈ headlessInputTypes then
        some ⟨t, getStringField fields "value", getStringField fields "partial"⟩
      else none
    | _ => none
  | _ => none

/-- Modelled from the spec: the outbound message kinds of §4.5 with their
payloads.  Generation timestamps are real-time values and are omitted. -/
inductive OutMsg where
  | output (content : String)
  | prompt (text : String)
  | completionResponse (suggestions : List String)
  | errorOut (message : String)
  | eventOut (name : String)
  | exitOut (code : Int)
deriving DecidableEq

/-- Modelled from the spec: the headless channel is open until an explicit
`exit` message ends it. -/
inductive ChanState where
  | accepting
  | ended
deriving DecidableEq

/-- The non-fatal error text answered to rejected inbound lines. -/
def invalidInputMessage : String := "Invalid input message"

/-- Modelled from the spec: dispatch of one validated inbound message (§4.5).
`exec` abstracts the parse→execute pipeline (the output lines of a command
line) and `compl` the completion machinery; the returned boolean is whether
the channel stays open.  Only `exit` closes it. -/
def handleInput (exec compl : String → List String) (promptText : String)
    (msg : HeadlessInput) : List OutMsg × Bool :=
  if msg.type = "command" then
    ((exec (msg.value.getD "")).map OutMsg.output ++ [OutMsg.prompt promptText], true)
  else if msg.type = "completion_request" then
    ([OutMsg.completionResponse (compl (msg.typedText.getD ""))], true)
  else if msg.type = "interrupt" then
    ([OutMsg.eventOut "interrupt"], true)
  else
    ([OutMsg.exitOut 0], false)

/-- Modelled from the spec: handling of one inbound line — validation via
`parseInput`, a non-fatal `error` answer for rejected input, dispatch
otherwise. -/
def processLine (exec compl : String → List String) (promptText : String)
    (st : ChanState) (parsed : Option Json) : ChanState × List OutMsg :=
  match st with
  | .ended => (.ended, [])
  | .accepting =>
    match parseInput parsed with
    | none => (.accepting, [OutMsg.errorOut invalidInputMessage])
    | some m =>
      ((if (handleInput exec compl promptText m).2 then ChanState.accepting else ChanState.ended),
        (handleInput exec compl promptText m).1)

/-- Modelled from the spec: the message loop processes validated inbound
messages strictly in arrival order, one to completion before the next, and
stops after a message that closes the channel. -/
def processMessages (exec compl : String → List String) (promptText : String) :
    List HeadlessInput → List OutMsg
  | [] => []
  | m :: rest =>
    if (handleInput exec compl promptText m).2 then
      (handleInput exec compl promptText m).1 ++ processMessages exec compl promptText rest
    else (handleInput exec compl promptText m).1

/-- An inbound line is well-formed: parsed JSON object with a recognized
string `type` field. -/
def recognizedInput (parsed : Option Json) : Prop :=
  ∃ fields t, parsed = some (Json.jobj fields) ∧
    lookupField fields "type" = some (Json.jstr t) ∧ t ∈ headlessInputTypes

/-! ### Login context subcommands

From `src/domains/login/context/index.ts`. -/

/-- Outcome of the namespaces API call made by the completion handler:
it either throws (a transport failure) or responds with an `ok` flag and an
optional list of items, each with an optional name. -/
inductive NetOutcome where
  | throws
  | responds (ok : Bool) (items : Option (List (Option String)))
deriving DecidableEq

/-- The API client as seen by `setCommand.completion`: an authentication
flag and the outcome of `get("/api/web/namespaces")`. -/
structure APIClientModel where
  authenticated : Bool
  namespacesCall : NetOutcome
deriving DecidableEq

/-- The static fallback suggestions of `setCommand.completion`
(`src/domains/login/context/index.ts` line 110). -/
def staticNamespaceSuggestions : List String := ["default", "system", "shared"]

/-- The fallback return of `setCommand.completion`: the static suggestions
filtered by the typed prefix (line 111). -/
def fallbackSuggestions (partialText : String) : List String :=
  staticNamespaceSuggestions.filter (fun ns => strStartsWith ns partialText)

/-- `setCommand.completion` from `src/domains/login/context/index.ts`
(lines 89-112): try the namespaces API when an authenticated client exists,
swallow any exception, and otherwise fall back to the static suggestions.
Items are kept when their name is present and truthy (nonempty), then
filtered case-insensitively by the typed prefix. -/
def setCompletion (partialText : String) (client : Option APIClientModel) : List String :=
  match client with
  | some c =>
    if c.authenticated then
      match c.namespacesCall with
      | .throws => fallbackSuggestions partialText
      | .responds ok items =>
        match ok, items with
        | true, some its =>
          ((its.filterMap id).filter (fun nm => nm ≠ "")).filter
            (fun ns => strStartsWith (lowerString ns) (lowerString partialText))
        | _, _ => fallbackSuggestions partialText
    else fallbackSuggestions partialText
  | none => fallbackSuggestions partialText

/-- Modelled from the spec: `DomainCommandResult` (§6) — output lines,
optional error, `contextChanged` and `shouldExit` flags.  The registry module
defining it is absent from the sources. -/
structure DomainCommandResult where
  output : List String
  error : Option String
  contextChanged : Bool
  shouldExit : Bool
deriving DecidableEq

/-- Modelled from the spec: `successResult(lines, contextChanged)` as used by
the login context commands. -/
def successResult (lines : List String) (contextChanged : Bool) : DomainCommandResult :=
  ⟨lines, none, contextChanged, false⟩

/-- Modelled from the spec: `errorResult(message)` as used by the login
context commands. -/
def errorResult (message : String) : DomainCommandResult :=
  ⟨[], some message, false, false⟩

/-- One character of the namespace pattern `[a-zA-Z0-9_-]`. -/
def isValidNamespaceChar (c : Char) : Bool :=
  (c.toNat ≥ 97 ∧ c.toNat ≤ 122) || (c.toNat ≥ 65 ∧ c.toNat ≤ 90) ||
  (c.toNat ≥ 48 ∧ c.toNat ≤ 57) || c = '_' || c = '-'

/-- The regular expression test `/^[a-zA-Z0-9_-]+$/.test(namespace)` of
`setCommand.execute`. -/
def namespacePatternTest (s : String) : Bool :=
  s ≠ "" && s.data.all isValidNamespaceChar

/-- `setCommand.execute` from `src/domains/login/context/index.ts`
(lines 61-87), with the session namespace passed and returned explicitly:
returns the command result together with the resulting session namespace. -/
def contextSetExecute (args : List String) (sessionNamespace : String) :
    DomainCommandResult × String :=
  match args.head? with
  | none => (errorResult "Usage: login context set <namespace>", sessionNamespace)
  | some ns =>
    if ns = "" then (errorResult "Usage: login context set <namespace>", sessionNamespace)
    else if ¬namespacePatternTest ns then
      (errorResult
        "Invalid namespace. Use alphanumeric characters, dashes, and underscores only.",
        sessionNamespace)
    else
      (successResult
        (if sessionNamespace ≠ ns then
          ["Namespace context changed.", "  Previous: " ++ sessionNamespace,
            "  Current:  " ++ ns]
        else ["Namespace context changed.", "  Namespace remains: " ++ ns]) true, ns)

/-! ### Supporting lemmas -/

theorem tierLevel_le_three (t : String) : tierLevel t ≤ 3 := by
  unfold tierLevel
  split
  · omega
  · split
    · omega
    · split <;> omega

theorem isNamespaceFlag_flagToken {t : String} (h : isNamespaceFlag t = true) :
    isFlagToken t = true := by
  simp only [isNamespaceFlag, Bool.or_eq_true, decide_eq_true_eq] at h
  rcases h with ((h | h) | h) | h <;> subst h <;> decide

theorem isOutputFlag_flagToken {t : String} (h : isOutputFlag t = true) :
    isFlagToken t = true := by
  simp only [isOutputFlag, Bool.or_eq_true, decide_eq_true_eq] at h
  rcases h with h | h <;> subst h <;> decide

theorem notFlag_facts {t : String} (h : isFlagToken t = false) :
    isNamespaceFlag t = false ∧ t ≠ "--name" ∧ isOutputFlag t = false ∧
    t ≠ "--spec" ∧ t ≠ "--no-color" := by
  refine ⟨?_, ?_, ?_, ?_, ?_⟩
  · cases hns : isNamespaceFlag t
    · rfl
    · rw [isNamespaceFlag_flagToken hns] at h; exact absurd h (by simp)
  · intro he; subst he; exact absurd h (by decide)
  · cases ho : isOutputFlag t
    · rfl
    · rw [isOutputFlag_flagToken ho] at h; exact absurd h (by simp)
  · intro he; subst he; exact absurd h (by decide)
  · intro he; subst he; exact absurd h (by decide)

theorem parseLoop_nil (known : Option (List String)) (s : ParseState) :
    parseLoop known [] s = s := rfl

theorem parseLoop_pos (known : Option (List String)) {t : String}
    (rest : List String) (s : ParseState) (h : isFlagToken t = false) :
    parseLoop known (t :: rest) s = parseLoop known rest (posStep known t s) := by
  obtain ⟨h1, h2, h3, h4, h5⟩ := notFlag_facts h
  rw [parseLoop.eq_def]
  simp [h1, h2, h3, h4, h5, h]

theorem parseLoop_ns (known : Option (List String)) {f : String}
    (v : String) (r : List String) (s : ParseState) (h : isNamespaceFlag f = true) :
    parseLoop known (f :: v :: r) s = parseLoop known r (setNsValue v s) := by
  rw [parseLoop.eq_def]
  simp [h]

theorem parseLoop_nameFlag (known : Option (List String))
    (v : String) (r : List String) (s : ParseState) :
    parseLoop known ("--name" :: v :: r) s = parseLoop known r (setNameValue v s) := by
  rw [parseLoop.eq_def]
  simp [isNamespaceFlag]

theorem parseLoop_out (known : Option (List String)) {f : String}
    (v : String) (r : List String) (s : ParseState) (h : isOutputFlag f = true) :
    parseLoop known (f :: v :: r) s = parseLoop known r (setOutValue v s) := by
  have hns : isNamespaceFlag f = false := by
    simp only [isOutputFlag, Bool.or_eq_true, decide_eq_true_eq] at h
    rcases h with h | h <;> subst h <;> decide
  have hname : f ≠ "--name" := by
    simp only [isOutputFlag, Bool.or_eq_true, decide_eq_true_eq] at h
    rcases h with h | h <;> subst h <;> decide
  rw [parseLoop.eq_def]
  simp [hns, hname, h]

theorem parseLoop_specFlag (known : Option (List String))
    (rest : List String) (s : ParseState) :
    parseLoop known ("--spec" :: rest) s = parseLoop known rest (setSpecOn s) := by
  rw [parseLoop.eq_def]
  simp [isNamespaceFlag, isOutputFlag]

theorem parseLoop_noColorFlag (known : Option (List String))
    (rest : List String) (s : ParseState) :
    parseLoop known ("--no-color" :: rest) s = parseLoop known rest (setNoColorOn s) := by
  rw [parseLoop.eq_def]
  simp [isNamespaceFlag, isOutputFlag]

theorem parseLoop_unknownPair (known : Option (List String)) {f v : String}
    (r : List String) (s : ParseState) (hf : isFlagToken f = true)
    (hrec : isRecognizedFlag f = false) (hv : isFlagToken v = false) :
    parseLoop known (f :: v :: r) s = parseLoop known r (addResidual [f, v] s) := by
  simp only [isRecognizedFlag, Bool.or_eq_false_iff, decide_eq_false_iff_not] at hrec
  obtain ⟨⟨⟨⟨h1, h2⟩, h3⟩, h4⟩, h5⟩ := hrec
  rw [parseLoop.eq_def]
  simp [h1, h2, h3, h4, h5, hf, hv]

theorem parseLoop_valueFlagLast (known : Option (List String)) (s : ParseState)
    {f : String} (h : isValueFlag f = true) : parseLoop known [f] s = s := by
  simp only [isValueFlag, Bool.or_eq_true, decide_eq_true_eq] at h
  rcases h with (h | h) | h
  · rw [parseLoop.eq_def]; simp [h]
  · subst h; rw [parseLoop.eq_def]; simp [isNamespaceFlag]
  · have hns : isNamespaceFlag f = false := by
      simp only [isOutputFlag, Bool.or_eq_true, decide_eq_true_eq] at h
      rcases h with h | h <;> subst h <;> decide
    have hname : f ≠ "--name" := by
      simp only [isOutputFlag, Bool.or_eq_true, decide_eq_true_eq] at h
      rcases h with h | h <;> subst h <;> decide
    rw [parseLoop.eq_def]; simp [hns, hname, h]

theorem parseLoop_unknownLast (known : Option (List String)) (s : ParseState)
    {t : String} (h1 : ¬isNamespaceFlag t = true) (h2 : ¬t = "--name")
    (h3 : ¬isOutputFlag t = true) (h4 : ¬t = "--spec") (h5 : ¬t = "--no-color")
    (hf : isFlagToken t = true) :
    parseLoop known [t] s = addResidual [t] s := by
  rw [parseLoop.eq_def]; simp [h1, h2, h3, h4, h5, hf]

theorem parseLoop_unknownSkip (known : Option (List String)) (s : ParseState)
    {t v : String} (r : List String) (h1 : ¬isNamespaceFlag t = true)
    (h2 : ¬t = "--name") (h3 : ¬isOutputFlag t = true) (h4 : ¬t = "--spec")
    (h5 : ¬t = "--no-color") (hf : isFlagToken t = true)
    (hv : isFlagToken v = true) :
    parseLoop known (t :: v :: r) s = parseLoop known (v :: r) (addResidual [t] s) := by
  rw [parseLoop.eq_def]; simp [h1, h2, h3, h4, h5, hf, hv]

theorem parseLoop_unknownPairN (known : Option (List String)) (s : ParseState)
    {t v : String} (r : List String) (h1 : ¬isNamespaceFlag t = true)
    (h2 : ¬t = "--name") (h3 : ¬isOutputFlag t = true) (h4 : ¬t = "--spec")
    (h5 : ¬t = "--no-color") (hf : isFlagToken t = true)
    (hv : ¬isFlagToken v = true) :
    parseLoop known (t :: v :: r) s = parseLoop known r (addResidual [t, v] s) := by
  rw [parseLoop.eq_def]; simp [h1, h2, h3, h4, h5, hf, hv]

theorem posStep_seen (known : Option (List String)) (t : String) (s : ParseState) :
    (posStep known t s).seenFirstPositional = true := by
  unfold posStep
  (repeat' split) <;> simp_all

theorem posStep_rt_of_seen (known : Option (List String)) (t : String)
    {s : ParseState} (h : s.seenFirstPositional = true) :
    (posStep known t s).resourceType = s.resourceType := by
  unfold posStep
  rw [if_pos h]
  split <;> rfl

theorem posStep_name_of_some (known : Option (List String)) (t : String)
    {s : ParseState} {x : String} (h : s.name = some x) :
    (posStep known t s).name = some x := by
  unfold posStep
  (repeat' split) <;> simp_all

theorem parseLoop_block (known : Option (List String)) :
    ∀ (bl : List FlagItem), (∀ it ∈ bl, it.WFItem) →
    ∀ (rest : List String) (s : ParseState),
      parseLoop known (blockTokens bl ++ rest) s =
        parseLoop known rest (applyBlock bl s) := by
  intro bl
  induction bl with
  | nil => intro _ rest s; simp [blockTokens, applyBlock]
  | cons it bl ih =>
    intro hwf rest s
    have hit : it.WFItem := hwf it (by simp)
    have hbl : ∀ x ∈ bl, x.WFItem := fun x hx => hwf x (by simp [hx])
    cases it with
    | nsItem f v =>
      simp only [blockTokens, FlagItem.tokens, List.cons_append, List.append_assoc, List.nil_append]
      rw [parseLoop_ns known v _ s hit, ih hbl, applyBlock, FlagItem.applyItem]
    | nameItem v =>
      simp only [blockTokens, FlagItem.tokens, List.cons_append, List.append_assoc, List.nil_append]
      rw [parseLoop_nameFlag, ih hbl, applyBlock, FlagItem.applyItem]
    | outItem f v =>
      simp only [blockTokens, FlagItem.tokens, List.cons_append, List.append_assoc, List.nil_append]
      rw [parseLoop_out known v _ s hit, ih hbl, applyBlock, FlagItem.applyItem]
    | specItem =>
      simp only [blockTokens, FlagItem.tokens, List.cons_append, List.append_assoc, List.nil_append]
      rw [parseLoop_specFlag, ih hbl, applyBlock, FlagItem.applyItem]
    | noColorItem =>
      simp only [blockTokens, FlagItem.tokens, List.cons_append, List.append_assoc, List.nil_append]
      rw [parseLoop_noColorFlag, ih hbl, applyBlock, FlagItem.applyItem]
    | otherItem f v =>
      obtain ⟨h1, h2, h3⟩ := hit
      simp only [blockTokens, FlagItem.tokens, List.cons_append, List.append_assoc, List.nil_append]
      rw [parseLoop_unknownPair known _ s h1 h2 h3, ih hbl, applyBlock, FlagItem.applyItem]

theorem applyItem_posStep_comm (known : Option (List String)) (nm : String)
    (it : FlagItem) (s : ParseState) :
    posStep known nm (it.applyItem s) = it.applyItem (posStep known nm s) := by
  cases it <;>
    simp only [FlagItem.applyItem, setNsValue, setNameValue, setOutValue, setSpecOn,
      setNoColorOn, addResidual, posStep] <;>
    cases known <;>
    (repeat' split) <;> simp_all

theorem applyBlock_posStep_comm (known : Option (List String)) (nm : String) :
    ∀ (bl : List FlagItem) (s : ParseState),
      posStep known nm (applyBlock bl s) = applyBlock bl (posStep known nm s) := by
  intro bl
  induction bl with
  | nil => intro s; rfl
  | cons it bl ih =>
    intro s
    simp only [applyBlock]
    rw [ih, applyItem_posStep_comm]

theorem parseLoop_rt_stable (known : Option (List String)) :
    ∀ (toks : List String) (s : ParseState), s.seenFirstPositional = true →
      (parseLoop known toks s).resourceType = s.resourceType ∧
      (parseLoop known toks s).seenFirstPositional = true := by
  intro toks s
  induction toks, s using parseLoop.induct known with
  | case1 s => intro hs; simp [parseLoop_nil, hs]
  | case2 t s h => intro hs; rw [parseLoop_valueFlagLast known s (by simp [isValueFlag, h])]; exact ⟨rfl, hs⟩
  | case3 t s h v r ih =>
    intro hs
    rw [parseLoop_ns known v r s h]
    simpa [setNsValue] using ih (by simpa [setNsValue] using hs)
  | case4 s h => intro hs; rw [parseLoop_valueFlagLast known s (by simp [isValueFlag])]; exact ⟨rfl, hs⟩
  | case5 s v r h ih =>
    intro hs
    rw [parseLoop_nameFlag known v r s]
    simpa [setNameValue] using ih (by simpa [setNameValue] using hs)
  | case6 t s h1 h2 h3 => intro hs; rw [parseLoop_valueFlagLast known s (by simp [isValueFlag, h3])]; exact ⟨rfl, hs⟩
  | case7 t s h1 h2 h3 v r ih =>
    intro hs
    rw [parseLoop_out known v r s h3]
    simpa [setOutValue] using ih (by simpa [setOutValue] using hs)
  | case8 rest s h1 h2 h3 ih =>
    intro hs
    rw [parseLoop_specFlag known rest s]
    simpa [setSpecOn] using ih (by simpa [setSpecOn] using hs)
  | case9 rest s h1 h2 h3 h4 ih =>
    intro hs
    rw [parseLoop_noColorFlag known rest s]
    simpa [setNoColorOn] using ih (by simpa [setNoColorOn] using hs)
  | case10 t s h1 h2 h3 h4 h5 hf =>
    intro hs
    rw [parseLoop_unknownLast known s h1 h2 h3 h4 h5 hf]
    exact ⟨rfl, hs⟩
  | case11 t s h1 h2 h3 h4 h5 hf v r hv ih =>
    intro hs
    rw [parseLoop_unknownSkip known s r h1 h2 h3 h4 h5 hf hv]
    simpa [addResidual] using ih (by simpa [addResidual] using hs)
  | case12 t s h1 h2 h3 h4 h5 hf v r hv ih =>
    intro hs
    rw [parseLoop_unknownPairN known s r h1 h2 h3 h4 h5 hf hv]
    simpa [addResidual] using ih (by simpa [addResidual] using hs)
  | case13 t rest s h1 h2 h3 h4 h5 hf ih =>
    intro hs
    rw [parseLoop_pos known rest s (by simpa using hf)]
    have h6 := posStep_rt_of_seen known t hs
    have h7 := posStep_seen known t s
    have := ih h7
    exact ⟨this.1.trans h6, this.2⟩

theorem parseLoop_name_stable (known : Option (List String)) :
    ∀ (toks : List String) (s : ParseState) (x : String), s.name = some x →
      "--name" ∉ toks → (parseLoop known toks s).name = some x := by
  intro toks s
  induction toks, s using parseLoop.induct known with
  | case1 s => intro x hn _; simpa [parseLoop_nil] using hn
  | case2 t s h => intro x hn _; rw [parseLoop_valueFlagLast known s (by simp [isValueFlag, h])]; exact hn
  | case3 t s h v r ih =>
    intro x hn hm
    rw [parseLoop_ns known v r s h]
    exact ih x (by simpa [setNsValue] using hn) (by simp at hm; simp [hm.2.2])
  | case4 s h => intro x hn hm; simp at hm
  | case5 s v r h ih => intro x hn hm; simp at hm
  | case6 t s h1 h2 h3 => intro x hn _; rw [parseLoop_valueFlagLast known s (by simp [isValueFlag, h3])]; exact hn
  | case7 t s h1 h2 h3 v r ih =>
    intro x hn hm
    rw [parseLoop_out known v r s h3]
    exact ih x (by simpa [setOutValue] using hn) (by simp at hm; simp [hm.2.2])
  | case8 rest s h1 h2 h3 ih =>
    intro x hn hm
    rw [parseLoop_specFlag known rest s]
    exact ih x (by simpa [setSpecOn] using hn) (by simp at hm; exact hm)
  | case9 rest s h1 h2 h3 h4 ih =>
    intro x hn hm
    rw [parseLoop_noColorFlag known rest s]
    exact ih x (by simpa [setNoColorOn] using hn) (by simp at hm; exact hm)
  | case10 t s h1 h2 h3 h4 h5 hf =>
    intro x hn _
    rw [parseLoop_unknownLast known s h1 h2 h3 h4 h5 hf]
    exact hn
  | case11 t s h1 h2 h3 h4 h5 hf v r hv ih =>
    intro x hn hm
    rw [parseLoop_unknownSkip known s r h1 h2 h3 h4 h5 hf hv]
    exact ih x (by simpa [addResidual] using hn) (by simp at hm; simp [hm.2])
  | case12 t s h1 h2 h3 h4 h5 hf v r hv ih =>
    intro x hn hm
    rw [parseLoop_unknownPairN known s r h1 h2 h3 h4 h5 hf hv]
    exact ih x (by simpa [addResidual] using hn) (by simp at hm; simp [hm.2.2])
  | case13 t rest s h1 h2 h3 h4 h5 hf ih =>
    intro x hn hm
    rw [parseLoop_pos known rest s (by simpa using hf)]
    exact ih x (posStep_name_of_some known t hn) (by simp at hm; simp [hm.2])

theorem handleInput_continues (exec compl : String → List String) (pt : String)
    (m : HeadlessInput) (hm : m.type ∈ headlessInputTypes)
    (hne : m.type ≠ "exit") : (handleInput exec compl pt m).2 = true := by
  simp only [headlessInputTypes, List.mem_cons, List.not_mem_nil, or_false] at hm
  rcases hm with h | h | h | h <;> simp [handleInput, h] at hne ⊢

/-! ### Claim theorems -/

/-- C1 counterexample: resolving the tier for an ENTERPRISE tenant yields
`"Advanced"`, which is not a member of the claimed enumeration
{Standard, Professional, Enterprise}. -/
theorem tier_resolution_not_spec_enumeration :
    determineTierFromTenantType "ENTERPRISE" = "Advanced" ∧
    "Advanced" ∉ specTierNames := by
  constructor
  · decide
  · decide

/-- C1 (amended): every tier value the subscription client resolves for a
caller — via `determineTierFromTenantType` or the legacy fallback
`determineTierFromPlansAndAddons` — is one of the two-valued enumeration
{Standard, Advanced}. -/
theorem tier_resolution_two_valued :
    ∀ (tenantType : String) (plans : List PlanInfo)
      (addons : List AddonServiceInfo),
      determineTierFromTenantType tenantType ∈ ["Standard", "Advanced"] ∧
      determineTierFromPlansAndAddons plans addons ∈ ["Standard", "Advanced"] := by
  intro tenantType plans addons
  constructor
  · unfold determineTierFromTenantType
    split
    · simp
    · split <;> simp
  · unfold determineTierFromPlansAndAddons
    split
    · simp
    · split <;> simp

/-- C2: `ValidateTierAccess` allows exactly when the caller's tier reaches the
required tier under the order Standard < Professional < Enterprise, and any
caller tier outside the recognized enumeration is allowed against every
required tier (fail-open). -/
theorem validateTierAccess_spec :
    (∀ c r : SpecTier,
      ValidateTierAccess c.wireName r.wireName = true ↔ r.rank ≤ c.rank) ∧
    (∀ u : String, u ∉ specTierNames →
      ∀ r : String, ValidateTierAccess u r = true) := by
  constructor
  · intro c r
    cases c <;> cases r <;> decide
  · intro u hu r
    have hne : u ≠ "Standard" ∧ u ≠ "Professional" ∧ u ≠ "Enterprise" := by
      simp [specTierNames] at hu
      exact ⟨hu.1, hu.2.1, hu.2.2⟩
    have hlevel : tierLevel u = 3 := by
      unfold tierLevel
      rw [if_neg hne.1, if_neg hne.2.1]
      split <;> rfl
    unfold ValidateTierAccess
    rw [hlevel]
    simpa using tierLevel_le_three r

/-- C2 witness: an unrecognized caller tier is allowed against the highest
required tier. -/
theorem validateTierAccess_spec_witness :
    ValidateTierAccess "GOLD" "Enterprise" = true :=
  validateTierAccess_spec.2 "GOLD" (by decide) "Enterprise"

/-- C3: order independence of the positional name around a block of flags. -/
theorem parse_order_independent :
    (∀ (known : Option (List String)) (s : ParseState) (bl : List FlagItem) (nm : String),
      (∀ it ∈ bl, it.WFItem) → isFlagToken nm = false →
      parseLoop known (blockTokens bl ++ [nm]) s = parseLoop known (nm :: blockTokens bl) s) ∧
    (∀ (known : Option (List String)) (rtype X nm : String),
      isFlagToken rtype = false → isFlagToken X = false → isFlagToken nm = false →
      parseCommandArgs [rtype, "--namespace", X, nm] known =
        parseCommandArgs [rtype, nm, "--namespace", X] known) := by
  have main : ∀ (known : Option (List String)) (s : ParseState) (bl : List FlagItem) (nm : String),
      (∀ it ∈ bl, it.WFItem) → isFlagToken nm = false →
      parseLoop known (blockTokens bl ++ [nm]) s = parseLoop known (nm :: blockTokens bl) s := by
    intro known s bl nm hwf hnm
    rw [parseLoop_block known bl hwf [nm] s, parseLoop_pos known [] _ hnm, parseLoop_nil,
      parseLoop_pos known _ _ hnm,
      ← List.append_nil (blockTokens bl), parseLoop_block known bl hwf [] _, parseLoop_nil,
      applyBlock_posStep_comm]
  refine ⟨main, ?_⟩
  intro known rtype X nm h1 h2 h3
  have hb : ∀ it ∈ [FlagItem.nsItem "--namespace" X], it.WFItem := by
    intro it hit
    simp at hit
    subst hit
    simp [FlagItem.WFItem, isNamespaceFlag]
  have := main known (posStep known rtype initState) [FlagItem.nsItem "--namespace" X] nm hb h3
  simp only [blockTokens, FlagItem.tokens, List.cons_append, List.nil_append] at this
  unfold parseCommandArgs
  rw [parseLoop_pos known _ _ h1, parseLoop_pos known _ _ h1, this]

/-- C3 witness: the specification's example pair of token lists parses
identically. -/
theorem parse_order_independent_witness :
    parseCommandArgs ["http_loadbalancer", "--namespace", "r-mordasiewicz", "canadian-http-lb"]
        (some ["http_loadbalancer"]) =
      parseCommandArgs ["http_loadbalancer", "canadian-http-lb", "--namespace", "r-mordasiewicz"]
        (some ["http_loadbalancer"]) :=
  parse_order_independent.2 (some ["http_loadbalancer"]) "http_loadbalancer" "r-mordasiewicz"
    "canadian-http-lb" (by decide) (by decide) (by decide)

/-- C4: resource type recognition. -/
theorem parse_resourceType_matching :
    ∀ (ks : List String) (t : String) (rest : List String), isFlagToken t = false →
      (matchesResourceType ks t = true →
        (parseCommandArgs (t :: rest) (some ks)).resourceType = some (lowerString t)) ∧
      (matchesResourceType ks t = false →
        (parseCommandArgs (t :: rest) (some ks)).resourceType = none ∧
        ("--name" ∉ rest → (parseCommandArgs (t :: rest) (some ks)).name = some t)) ∧
      ((parseCommandArgs (t :: rest) none).resourceType = none ∧
        ("--name" ∉ rest → (parseCommandArgs (t :: rest) none).name = some t)) := by
  intro ks t rest hflag
  refine ⟨?_, ?_, ?_⟩
  · intro hmatch
    unfold parseCommandArgs
    rw [parseLoop_pos (some ks) rest initState hflag]
    have hstep : posStep (some ks) t initState =
        ⟨some (lowerString t), none, none, none, false, false, [], true⟩ := by
      simp [posStep, initState, hmatch]
    rw [hstep]
    have := parseLoop_rt_stable (some ks) rest
      ⟨some (lowerString t), none, none, none, false, false, [], true⟩ (by rfl)
    simp [ParseState.toParsedArgs, this.1]
  · intro hmatch
    unfold parseCommandArgs
    rw [parseLoop_pos (some ks) rest initState hflag]
    have hstep : posStep (some ks) t initState =
        ⟨none, some t, none, none, false, false, [], true⟩ := by
      simp [posStep, initState, hmatch]
    rw [hstep]
    constructor
    · have := parseLoop_rt_stable (some ks) rest
        ⟨none, some t, none, none, false, false, [], true⟩ (by rfl)
      simp [ParseState.toParsedArgs, this.1]
    · intro hmem
      have := parseLoop_name_stable (some ks) rest
        ⟨none, some t, none, none, false, false, [], true⟩ t (by rfl) hmem
      simp [ParseState.toParsedArgs, this]
  · unfold parseCommandArgs
    rw [parseLoop_pos none rest initState hflag]
    have hstep : posStep none t initState =
        ⟨none, some t, none, none, false, false, [], true⟩ := by
      simp [posStep, initState]
    rw [hstep]
    constructor
    · have := parseLoop_rt_stable none rest
        ⟨none, some t, none, none, false, false, [], true⟩ (by rfl)
      simp [ParseState.toParsedArgs, this.1]
    · intro hmem
      have := parseLoop_name_stable none rest
        ⟨none, some t, none, none, false, false, [], true⟩ t (by rfl) hmem
      simp [ParseState.toParsedArgs, this]

/-- C4 witness: case-insensitive match and fallback-to-name at concrete inputs. -/
theorem parse_resourceType_matching_witness :
    (parseCommandArgs ["HTTP_LOADBALANCER"] (some ["http_loadbalancer"])).resourceType =
      some "http_loadbalancer" ∧
    (parseCommandArgs ["unknown_resource"] (some ["http_loadbalancer"])).name =
      some "unknown_resource" := by
  constructor
  · exact ((parse_resourceType_matching ["http_loadbalancer"] "HTTP_LOADBALANCER" []
      (by decide)).1 (by decide)).trans (by decide)
  · exact ((parse_resourceType_matching ["http_loadbalancer"] "unknown_resource" []
      (by decide)).2.1 (by decide)).2 (by decide)

/-- C5: `--name` flag precedence over positional name resolution. -/
theorem parse_name_flag_precedence :
    ∀ (known : Option (List String)) (rtype v nm : String),
      isFlagToken rtype = false → isFlagToken nm = false →
      (parseCommandArgs [rtype, "--name", v, nm] known).name = some v ∧
      (parseCommandArgs [rtype, nm, "--name", v] known).name = some v ∧
      ∀ X, (parseCommandArgs [rtype, "--namespace", X, "--name", v, nm] known).name = some v := by
  intro known rtype v nm h1 h2
  refine ⟨?_, ?_, ?_⟩
  · unfold parseCommandArgs
    rw [parseLoop_pos known _ _ h1, parseLoop_nameFlag known v _ _,
      parseLoop_pos known _ _ h2, parseLoop_nil]
    simp [ParseState.toParsedArgs,
      posStep_name_of_some known nm (show (setNameValue v (posStep known rtype initState)).name = some v by rfl)]
  · unfold parseCommandArgs
    rw [parseLoop_pos known _ _ h1, parseLoop_pos known _ _ h2,
      parseLoop_nameFlag known v _ _, parseLoop_nil]
    simp [ParseState.toParsedArgs, setNameValue]
  · intro X
    unfold parseCommandArgs
    rw [parseLoop_pos known _ _ h1, parseLoop_ns known X _ _ (by decide),
      parseLoop_nameFlag known v _ _, parseLoop_pos known _ _ h2, parseLoop_nil]
    simp [ParseState.toParsedArgs,
      posStep_name_of_some known nm
        (show (setNameValue v (setNsValue X (posStep known rtype initState))).name = some v by rfl)]

/-- C5 witness: the flag value wins over a trailing positional at a concrete
input. -/
theorem parse_name_flag_precedence_witness :
    (parseCommandArgs ["http_loadbalancer", "--name", "my-lb", "trailing"]
      (some ["http_loadbalancer"])).name = some "my-lb" :=
  (parse_name_flag_precedence (some ["http_loadbalancer"]) "http_loadbalancer" "my-lb"
    "trailing" (by decide) (by decide)).1

/-- C6: unknown-flag value skipping and trailing value-taking flags. -/
theorem parse_unknown_flag_handling :
    (∀ (known : Option (List String)) (s : ParseState) (f v : String) (rest : List String),
      isFlagToken f = true → isRecognizedFlag f = false → isFlagToken v = false →
      parseLoop known (f :: v :: rest) s = parseLoop known rest (addResidual [f, v] s)) ∧
    (∀ (known : Option (List String)) (s : ParseState) (f : String),
      isValueFlag f = true → parseLoop known [f] s = s) ∧
    parseCommandArgs ["http_loadbalancer", "--unknown-flag", "value", "my-resource"]
        (some ["http_loadbalancer"]) =
      ⟨some "http_loadbalancer", some "my-resource", none, none, false, false,
        ["--unknown-flag", "value"]⟩ ∧
    (parseCommandArgs ["http_loadbalancer", "my-lb", "--namespace"]
        (some ["http_loadbalancer"])).nsValue = none := by
  refine ⟨?_, ?_, by decide, by decide⟩
  · intro known s f v rest hf hrec hv
    exact parseLoop_unknownPair known rest s hf hrec hv
  · intro known s f h
    exact parseLoop_valueFlagLast known s h

/-- C6 witness: a concrete unknown flag swallows its value, and a concrete
trailing `--namespace` leaves the state untouched. -/
theorem parse_unknown_flag_handling_witness :
    parseLoop none ["-z", "val"] initState =
      parseLoop none [] (addResidual ["-z", "val"] initState) ∧
    parseLoop none ["--namespace"] initState = initState :=
  ⟨parse_unknown_flag_handling.1 none initState "-z" "val" [] (by decide) (by decide)
      (by decide),
    parse_unknown_flag_handling.2.1 none initState "--namespace" (by decide)⟩

/-- C7: inbound validation. -/
theorem parseInput_validates :
    (∀ parsed, (∃ m, parseInput parsed = some m) ↔ recognizedInput parsed) ∧
    (∀ (exec compl : String → List String) (pt : String) (parsed : Option Json),
      parseInput parsed = none →
      processLine exec compl pt ChanState.accepting parsed =
        (ChanState.accepting, [OutMsg.errorOut invalidInputMessage])) := by
  constructor
  · intro parsed
    constructor
    · rintro ⟨m, hm⟩
      cases parsed with
      | none => simp [parseInput] at hm
      | some j =>
        cases j with
        | jobj fields =>
          simp only [parseInput] at hm
          cases hl : lookupField fields "type" with
          | none => rw [hl] at hm; simp at hm
          | some jv =>
            cases jv with
            | jstr t =>
              rw [hl] at hm
              by_cases hc : t ∈ headlessInputTypes
              · exact ⟨fields, t, rfl, hl, hc⟩
              · simp [hc] at hm
            | jnull => rw [hl] at hm; simp at hm
            | jbool b => rw [hl] at hm; simp at hm
            | jnum n => rw [hl] at hm; simp at hm
            | jarr items => rw [hl] at hm; simp at hm
            | jobj fs => rw [hl] at hm; simp at hm
        | jnull => simp [parseInput] at hm
        | jbool b => simp [parseInput] at hm
        | jnum n => simp [parseInput] at hm
        | jstr s => simp [parseInput] at hm
        | jarr items => simp [parseInput] at hm
    · rintro ⟨fields, t, rfl, hl, ht⟩
      exact ⟨⟨t, getStringField fields "value", getStringField fields "partial"⟩,
        by simp [parseInput, hl, ht]⟩
  · intro exec compl pt parsed h
    simp [processLine, h]

/-- C7 witness: a non-object JSON value is rejected with an error message and
the channel stays open. -/
theorem parseInput_validates_witness :
    processLine (fun _ => []) (fun _ => []) "xcsh> " ChanState.accepting
        (some (Json.jstr "oops")) =
      (ChanState.accepting, [OutMsg.errorOut invalidInputMessage]) :=
  parseInput_validates.2 (fun _ => []) (fun _ => []) "xcsh> "
    (some (Json.jstr "oops")) rfl

/-- C8: output-before-prompt ordering and in-order processing. -/
theorem headless_command_ordering :
    (∀ (exec compl : String → List String) (pt : String) (m : HeadlessInput),
      m.type = "command" →
      ∃ outs, processMessages exec compl pt [m] = outs ++ [OutMsg.prompt pt] ∧
        ∀ x ∈ outs, ∃ c, x = OutMsg.output c) ∧
    (∀ (exec compl : String → List String) (pt : String) (msgs : List HeadlessInput),
      (∀ m ∈ msgs, m.type ∈ headlessInputTypes ∧ m.type ≠ "exit") →
      processMessages exec compl pt msgs =
        (msgs.map (fun m => (handleInput exec compl pt m).1)).flatten) := by
  constructor
  · intro exec compl pt m hm
    refine ⟨(exec (m.value.getD "")).map OutMsg.output, ?_, ?_⟩
    · simp [processMessages, handleInput, hm]
    · intro x hx
      rcases List.mem_map.mp hx with ⟨c, _, hc⟩
      exact ⟨c, hc.symm⟩
  · intro exec compl pt msgs
    induction msgs with
    | nil => intro _; simp [processMessages]
    | cons m rest ih =>
      intro h
      have h1 := h m (by simp)
      have h2 : ∀ x ∈ rest, x.type ∈ headlessInputTypes ∧ x.type ≠ "exit" :=
        fun x hx => h x (by simp [hx])
      simp only [processMessages, handleInput_continues exec compl pt m h1.1 h1.2, if_true]
      rw [ih h2]
      simp

/-- C8 witness: a concrete command's outputs precede the prompt, and a
command/interrupt pair is processed in arrival order. -/
theorem headless_command_ordering_witness :
    (∃ outs, processMessages (fun _ => ["line1", "line2"]) (fun _ => []) "p> "
        [⟨"command", some "help", none⟩] = outs ++ [OutMsg.prompt "p> "] ∧
      ∀ x ∈ outs, ∃ c, x = OutMsg.output c) ∧
    processMessages (fun _ => ["line1", "line2"]) (fun _ => []) "p> "
        [⟨"command", some "help", none⟩, ⟨"interrupt", none, none⟩] =
      ([⟨"command", some "help", none⟩, ⟨"interrupt", none, none⟩].map
        (fun m => (handleInput (fun _ => ["line1", "line2"]) (fun _ => []) "p> " m).1)).flatten :=
  ⟨headless_command_ordering.1 (fun _ => ["line1", "line2"]) (fun _ => []) "p> "
      ⟨"command", some "help", none⟩ rfl,
    headless_command_ordering.2 (fun _ => ["line1", "line2"]) (fun _ => []) "p> "
      [⟨"command", some "help", none⟩, ⟨"interrupt", none, none⟩] (by decide)⟩

/-- C9: a transport failure in the completion's network call is swallowed and
the static namespace suggestions are returned. -/
theorem completion_swallows_network_failure :
    ∀ (partialText : String) (c : APIClientModel),
      c.authenticated = true → c.namespacesCall = NetOutcome.throws →
      setCompletion partialText (some c) = fallbackSuggestions partialText := by
  intro partialText c h1 h2
  cases c
  simp at h1 h2
  subst h1; subst h2
  simp [setCompletion]

/-- C9 witness: a throwing namespaces call yields the static fallback for a
concrete prefix. -/
theorem completion_swallows_network_failure_witness :
    setCompletion "de" (some ⟨true, NetOutcome.throws⟩) = fallbackSuggestions "de" :=
  completion_swallows_network_failure "de" ⟨true, NetOutcome.throws⟩ rfl rfl

/-- C10: the set command's namespace guard. -/
theorem contextSet_namespace_guard :
    (∀ (args : List String) (sNs a : String), args.head? = some a →
      namespacePatternTest a = true →
      (contextSetExecute args sNs).2 = a ∧
      (contextSetExecute args sNs).1.contextChanged = true ∧
      (contextSetExecute args sNs).1.error = none) ∧
    (∀ (args : List String) (sNs : String),
      (∀ a, args.head? = some a → namespacePatternTest a = false) →
      (contextSetExecute args sNs).2 = sNs ∧
      (contextSetExecute args sNs).1.error ≠ none ∧
      (contextSetExecute args sNs).1.contextChanged = false) ∧
    (∀ (args : List String) (sNs : String), sNs ≠ "" → (contextSetExecute args sNs).2 ≠ "") := by
  refine ⟨?_, ?_, ?_⟩
  · intro args sNs a harg hpat
    have hne : a ≠ "" := by
      intro he; subst he; simp [namespacePatternTest] at hpat
    unfold contextSetExecute
    rw [harg]
    simp [hne, hpat, successResult]
  · intro args sNs h
    unfold contextSetExecute
    cases harg : args.head? with
    | none => simp [errorResult]
    | some a =>
      have hpat := h a harg
      by_cases he : a = ""
      · simp [he, errorResult]
      · simp [he, hpat, errorResult]
  · intro args sNs hs
    unfold contextSetExecute
    cases harg : args.head? with
    | none => simpa [errorResult] using hs
    | some a =>
      by_cases he : a = ""
      · simpa [he, errorResult] using hs
      · by_cases hpat : namespacePatternTest a = true
        · simp [he, hpat, successResult]
        · simp only [Bool.not_eq_true] at hpat
          simpa [he, hpat, errorResult] using hs

/-- C10 witness: a valid first argument changes the namespace, an invalid one
leaves it unchanged, and a nonempty session namespace never becomes empty. -/
theorem contextSet_namespace_guard_witness :
    ((contextSetExecute ["team-a"] "default").2 = "team-a" ∧
      (contextSetExecute ["team-a"] "default").1.contextChanged = true ∧
      (contextSetExecute ["team-a"] "default").1.error = none) ∧
    ((contextSetExecute ["bad ns!"] "default").2 = "default" ∧
      (contextSetExecute ["bad ns!"] "default").1.error ≠ none ∧
      (contextSetExecute ["bad ns!"] "default").1.contextChanged = false) ∧
    (contextSetExecute [] "default").2 ≠ "" :=
  ⟨contextSet_namespace_guard.1 ["team-a"] "default" "team-a" rfl (by decide),
    contextSet_namespace_guard.2.1 ["bad ns!"] "default"
      (by intro a ha; simp at ha; subst ha; decide),
    contextSet_namespace_guard.2.2 [] "default" (by decide)⟩

/-! ### Test-matrix checks

The modelled parser, protocol and context command reproduce the expectations
of the repository's unit tests (`tests/unit/parse-command-args.test.ts`,
`tests/unit/errors.test.ts`). -/

example : parseCommandArgs ["http_loadbalancer", "--namespace", "r-mordasiewicz", "canadian-http-lb"]
    (some ["http_loadbalancer"]) =
    ⟨some "http_loadbalancer", some "canadian-http-lb", some "r-mordasiewicz", none, false, false, []⟩ := by decide

example : parseCommandArgs ["http_loadbalancer", "canadian-http-lb", "--namespace", "r-mordasiewicz"]
    (some ["http_loadbalancer"]) =
    ⟨some "http_loadbalancer", some "canadian-http-lb", some "r-mordasiewicz", none, false, false, []⟩ := by decide

example : parseCommandArgs ["http_loadbalancer", "--namespace", "r-m", "--name", "canadian-http-lb"]
    (some ["http_loadbalancer"]) =
    ⟨some "http_loadbalancer", some "canadian-http-lb", some "r-m", none, false, false, []⟩ := by decide

example : parseCommandArgs ["http_loadbalancer", "-ns", "r-m", "canadian-http-lb"]
    (some ["http_loadbalancer"]) =
    ⟨some "http_loadbalancer", some "canadian-http-lb", some "r-m", none, false, false, []⟩ := by decide

example : parseCommandArgs ["http_loadbalancer", "--output", "json"] (some ["http_loadbalancer"]) =
    ⟨some "http_loadbalancer", none, none, some "json", false, false, []⟩ := by decide

example : (parseCommandArgs ["http_loadbalancer", "--output", "text"] (some ["http_loadbalancer"])).outputFormat =
    some "table" := by decide

example : parseCommandArgs ["http_loadbalancer", "--spec", "--no-color"] (some ["http_loadbalancer"]) =
    ⟨some "http_loadbalancer", none, none, none, true, true, []⟩ := by decide

example : parseCommandArgs ["origin_pool"] (some ["http_loadbalancer", "origin_pool", "waf_policy"]) =
    ⟨some "origin_pool", none, none, none, false, false, []⟩ := by decide

example : parseCommandArgs ["unknown_resource"] none =
    ⟨none, some "unknown_resource", none, none, false, false, []⟩ := by decide

example : parseCommandArgs ["unknown_resource"] (some ["http_loadbalancer"]) =
    ⟨none, some "unknown_resource", none, none, false, false, []⟩ := by decide

example : parseCommandArgs ["HTTP_LOADBALANCER"] (some ["http_loadbalancer"]) =
    ⟨some "http_loadbalancer", none, none, none, false, false, []⟩ := by decide

example : parseCommandArgs
    ["http_loadbalancer", "--namespace", "prod", "--output", "json", "--spec", "--no-color", "my-lb"]
    (some ["http_loadbalancer"]) =
    ⟨some "http_loadbalancer", some "my-lb", some "prod", some "json", true, true, []⟩ := by decide

example : parseCommandArgs [] (some ["http_loadbalancer"]) =
    ⟨none, none, none, none, false, false, []⟩ := by decide

example : parseCommandArgs ["--namespace", "test"] (some ["http_loadbalancer"]) =
    ⟨none, none, some "test", none, false, false, []⟩ := by decide

example : parseCommandArgs ["http_loadbalancer", "origin_pool"] (some ["http_loadbalancer", "origin_pool"]) =
    ⟨some "http_loadbalancer", some "origin_pool", none, none, false, false, []⟩ := by decide

example : parseCommandArgs ["http_loadbalancer", "--unknown-flag", "value", "my-resource"]
    (some ["http_loadbalancer"]) =
    ⟨some "http_loadbalancer", some "my-resource", none, none, false, false, ["--unknown-flag", "value"]⟩ := by decide

example : parseCommandArgs ["http_loadbalancer", "my-lb", "--namespace"] (some ["http_loadbalancer"]) =
    ⟨some "http_loadbalancer", some "my-lb", none, none, false, false, []⟩ := by decide

example : parseCommandArgs ["some_resource", "resource-name"] none =
    ⟨none, some "some_resource", none, none, false, false, []⟩ := by decide

example : parseInput (some (Json.jobj [("type", Json.jstr "command"), ("value", Json.jstr "help")])) =
    some ⟨"command", some "help", none⟩ := by decide

example : parseInput (some (Json.jobj [("type", Json.jstr "completion_request"), ("partial", Json.jstr "log")])) =
    some ⟨"completion_request", none, some "log"⟩ := by decide

example : parseInput (some (Json.jobj [("type", Json.jstr "exit")])) = some ⟨"exit", none, none⟩ := by decide

example : parseInput none = none := by decide

example : parseInput (some (Json.jobj [("value", Json.jstr "test")])) = none := by decide

example : parseInput (some (Json.jobj [("type", Json.jstr "invalid")])) = none := by decide

example : parseInput (some (Json.jstr "a string")) = none := by decide

example : parseInput (some Json.jnull) = none := by decide

example : setCompletion "de" (some ⟨true, NetOutcome.responds true (some [some "default", none, some "demo-ns"])⟩) =
    ["default", "demo-ns"] := by decide

example : contextSetExecute ["prod"] "default" =
    (⟨["Namespace context changed.", "  Previous: default", "  Current:  prod"], none, true, false⟩, "prod") := by decide

example : contextSetExecute [] "default" =
    (⟨[], some "Usage: login context set <namespace>", false, false⟩, "default") := by decide

example : contextSetExecute ["bad ns"] "default" =
    (⟨[], some "Invalid namespace. Use alphanumeric characters, dashes, and underscores only.", false, false⟩,
      "default") := by decide
